import Mathlib

/-!
# Verification of `worker/worker.go` (promql-to-dd-go worker)

Shallow embedding of the worker package: the range calculator `calcRange`
and `QueryWindow`, the tick executor `do`, and the scheduler loop `Run`.

Modelling conventions:
* Durations and timestamps are whole Unix seconds (`Int`).  Go's `int64`
  division (`/`, truncation toward zero) is `Int.tdiv`.
* `time.Duration(x.Seconds()*1.2)` converts a float to an integer by
  truncation toward zero; for a whole-second interval `qi` this is
  `Int.tdiv (qi * 6) 5` (float64 rounding is idealised by exact rationals).
* Go's integer division by zero panics at run time; `calcRange` therefore
  returns `Option`, with `none` standing for the panic.
* The external collaborators (`ListMetrics`, `QueryMetrics`,
  `SubmitMetrics`) and the series translators defined in other files of
  the package (`PromHistogramToDatadogGauge`, `PromCountToDatadogRate`,
  `PromCountToDatadogCount`) are opaque parameters of the tick executor;
  matrices, series and errors are type parameters `μ`, `σ`, `ε`.
* A tick (`doTick`) records the queries it issued in order, the batch
  passed to `SubmitMetrics` if that call happened, the errors sent on the
  error channel, and whether it panicked (killing the process, since the
  tick runs in a goroutine).
* The scheduler loop `Run` is modelled by `runLoop` over a script of
  `select` outcomes: a received tick error, a ticker fire, an interrupt
  signal, or a tick panic (which is not a `select` case but kills the
  process mid-wait).
-/

namespace Worker

/-- Embedding of `promapi.Range` (the result of `calcRange`, fields
`Start`, `End`, `Step`); `stop` models the Go field `End`, in Unix
seconds, and `step` is `StepDuration` in whole seconds. -/
structure PromRange where
  start : Int
  stop : Int
  step : Int
deriving Repr, DecidableEq

/-- `func (w *Worker) QueryWindow() time.Duration`:
`time.Duration(w.QueryInterval.Seconds()*1.2) * time.Second`, i.e. the
query-interval seconds times 1.2 truncated toward zero to whole seconds
(the "20% range overlap between queries" comment in the source). -/
def queryWindowSeconds (queryIntervalSeconds : Int) : Int :=
  Int.tdiv (queryIntervalSeconds * 6) 5

/-- `func (w *Worker) calcRange() promapi.Range`, with `now` the Unix
seconds of `time.Now()`.  `none` models the division-by-zero panic when
`int64(w.StepDuration.Seconds())` is zero. -/
def calcRange (now queryIntervalSeconds stepSeconds : Int) : Option PromRange :=
  if stepSeconds = 0 then
    none
  else
    let e := Int.tdiv now 60 * 60
    let star := e - queryWindowSeconds queryIntervalSeconds
    some { start := (Int.tdiv star stepSeconds - 1) * stepSeconds
           stop := (Int.tdiv e stepSeconds + 1) * stepSeconds
           step := stepSeconds }

/-- The three PromQL expression shapes issued by `func (w *Worker) do`:
`fmt.Sprintf(HistogramPromQL, quantile, bucketName)`,
`fmt.Sprintf(RatePromQL, counterName)`, and the raw counter name.
`fmt.Sprintf` is injective on each shape, so an expression is modelled by
its constructor and arguments; quantiles (`float64` in the source) are
idealised as rationals. -/
inductive PromQuery where
  | histogram (quantile : Rat) (bucketName : String)
  | rate (counterName : String)
  | raw (counterName : String)
deriving DecidableEq, Repr

/-- Whether a query is a histogram-quantile range query. -/
def PromQuery.isHistogramQuery : PromQuery → Bool
  | .histogram _ _ => true
  | _ => false

/-- Whether a query is a rate range query. -/
def PromQuery.isRateQuery : PromQuery → Bool
  | .rate _ => true
  | _ => false

/-- Whether a query is a raw-count range query. -/
def PromQuery.isRawQuery : PromQuery → Bool
  | .raw _ => true
  | _ => false

/-- Outcome of one query loop of the tick: the range queries issued in
order, and either the series collected, or the first error (sent on the
error channel followed by `return`). -/
inductive LoopOutcome (ε σ : Type) where
  | ok (issued : List PromQuery) (series : List σ)
  | fail (issued : List PromQuery) (e : ε)

/-- Outcome of the counter loop, which collects rate series and raw count
series separately. -/
inductive CounterLoopOutcome (ε σ : Type) where
  | ok (issued : List PromQuery) (rateSeries : List σ) (countSeries : List σ)
  | fail (issued : List PromQuery) (e : ε)

/-- Inner histogram loop of `do` (`for _, bucketName := range histograms`)
for a fixed `quantile`: issue
`w.QueryMetrics(fmt.Sprintf(HistogramPromQL, quantile, bucketName), queryRange)`
and append `PromHistogramToDatadogGauge(bucketName, quantile, matrix)`;
on the first error, report it and stop. -/
def histLoopInner {ε μ σ : Type} (queryMetrics : PromQuery → PromRange → Except ε μ)
    (queryRange : PromRange) (promHistogramToDatadogGauge : String → Rat → μ → List σ)
    (quantile : Rat) : List String → LoopOutcome ε σ
  | [] => .ok [] []
  | bucketName :: rest =>
    match queryMetrics (.histogram quantile bucketName) queryRange with
    | .error e => .fail [.histogram quantile bucketName] e
    | .ok matrix =>
      match histLoopInner queryMetrics queryRange promHistogramToDatadogGauge quantile rest with
      | .ok issued series =>
          .ok (.histogram quantile bucketName :: issued)
            (promHistogramToDatadogGauge bucketName quantile matrix ++ series)
      | .fail issued e => .fail (.histogram quantile bucketName :: issued) e

/-- Outer histogram loop of `do` (`for _, quantile := range w.Quantiles`). -/
def histLoop {ε μ σ : Type} (queryMetrics : PromQuery → PromRange → Except ε μ)
    (queryRange : PromRange) (promHistogramToDatadogGauge : String → Rat → μ → List σ) :
    List Rat → List String → LoopOutcome ε σ
  | [], _ => .ok [] []
  | quantile :: rest, histograms =>
    match histLoopInner queryMetrics queryRange promHistogramToDatadogGauge quantile
        histograms with
    | .fail issued e => .fail issued e
    | .ok issued series =>
      match histLoop queryMetrics queryRange promHistogramToDatadogGauge rest histograms with
      | .ok issued2 series2 => .ok (issued ++ issued2) (series ++ series2)
      | .fail issued2 e => .fail (issued ++ issued2) e

/-- Counter loop of `do` (`for _, counterName := range counters`): for each
counter, issue the rate query then the raw count query, append
`PromCountToDatadogRate(counterName, matrix)` and
`PromCountToDatadogCount(counterName, matrix)`; on the first error, report
it and stop. -/
def counterLoop {ε μ σ : Type} (queryMetrics : PromQuery → PromRange → Except ε μ)
    (queryRange : PromRange) (promCountToDatadogRate : String → μ → List σ)
    (promCountToDatadogCount : String → μ → List σ) :
    List String → CounterLoopOutcome ε σ
  | [] => .ok [] [] []
  | counterName :: rest =>
    match queryMetrics (.rate counterName) queryRange with
    | .error e => .fail [.rate counterName] e
    | .ok matrix1 =>
      match queryMetrics (.raw counterName) queryRange with
      | .error e => .fail [.rate counterName, .raw counterName] e
      | .ok matrix2 =>
        match counterLoop queryMetrics queryRange promCountToDatadogRate
            promCountToDatadogCount rest with
        | .ok issued rateSeries countSeries =>
            .ok (.rate counterName :: .raw counterName :: issued)
              (promCountToDatadogRate counterName matrix1 ++ rateSeries)
              (promCountToDatadogCount counterName matrix2 ++ countSeries)
        | .fail issued e => .fail (.rate counterName :: .raw counterName :: issued) e

/-- Observable behaviour of one run of `func (w *Worker) do(errorChan chan<- error)`:
the range queries issued in order; the batch passed to `w.SubmitMetrics`
if that call happened (`none` means `SubmitMetrics` was never invoked);
the errors sent on `errorChan`, in order; and whether the tick panicked
(division by zero in `calcRange`, or `panic(err)` after `ListMetrics`
fails), which kills the whole process since `do` runs in a goroutine. -/
structure TickResult (ε σ : Type) where
  issued : List PromQuery
  submitted : Option (List σ)
  reported : List ε
  crashed : Bool
deriving Repr

/-- `func (w *Worker) do(errorChan chan<- error)`.  Arguments mirror the
receiver configuration and the collaborators: `now` is the wall clock at
`calcRange`, `listMetrics` the result of
`w.ListMetrics(w.MetricPrefix)`, `queryMetrics` the behaviour of
`w.QueryMetrics`, the next three the series translators, `submitMetrics`
the behaviour of `w.SubmitMetrics` (`some e` = error), `quantiles` the
configured `w.Quantiles`. -/
def doTick {ε μ σ : Type} (now queryIntervalSeconds stepSeconds : Int)
    (listMetrics : Except ε (List String × List String))
    (queryMetrics : PromQuery → PromRange → Except ε μ)
    (promHistogramToDatadogGauge : String → Rat → μ → List σ)
    (promCountToDatadogRate : String → μ → List σ)
    (promCountToDatadogCount : String → μ → List σ)
    (submitMetrics : List σ → Option ε)
    (quantiles : List Rat) : TickResult ε σ :=
  match calcRange now queryIntervalSeconds stepSeconds with
  | none => { issued := [], submitted := none, reported := [], crashed := true }
  | some queryRange =>
    match listMetrics with
    | .error _ => { issued := [], submitted := none, reported := [], crashed := true }
    | .ok (histograms, counters) =>
      match histLoop queryMetrics queryRange promHistogramToDatadogGauge quantiles
          histograms with
      | .fail issued e =>
          { issued := issued, submitted := none, reported := [e], crashed := false }
      | .ok histIssued histogramSeries =>
        match counterLoop queryMetrics queryRange promCountToDatadogRate
            promCountToDatadogCount counters with
        | .fail issued e =>
            { issued := histIssued ++ issued, submitted := none, reported := [e],
              crashed := false }
        | .ok counterIssued rateSeries countSeries =>
          let series := (histogramSeries ++ rateSeries) ++ countSeries
          match submitMetrics series with
          | some e =>
              { issued := histIssued ++ counterIssued, submitted := some series,
                reported := [e], crashed := false }
          | none =>
              { issued := histIssued ++ counterIssued, submitted := some series,
                reported := [], crashed := false }

/-- The histogram range queries a tick plans: the cross product of the
configured quantiles and the discovered histogram bucket names, in loop
order. -/
def plannedHistQueries (quantiles : List Rat) (histograms : List String) : List PromQuery :=
  quantiles.flatMap fun quantile => histograms.map (PromQuery.histogram quantile)

/-- The counter range queries a tick plans: for each discovered counter,
its rate query then its raw count query. -/
def plannedCounterQueries (counters : List String) : List PromQuery :=
  counters.flatMap fun counterName => [.rate counterName, .raw counterName]

/-- The histogram-derived part of the batch, when the backend answers the
query `pq` with matrix `f pq`. -/
def histogramSeriesOf {μ σ : Type} (promHistogramToDatadogGauge : String → Rat → μ → List σ)
    (f : PromQuery → μ) (quantiles : List Rat) (histograms : List String) : List σ :=
  quantiles.flatMap fun quantile => histograms.flatMap fun bucketName =>
    promHistogramToDatadogGauge bucketName quantile (f (.histogram quantile bucketName))

/-- The rate-derived part of the batch, when the backend answers `pq` with
`f pq`. -/
def rateSeriesOf {μ σ : Type} (promCountToDatadogRate : String → μ → List σ)
    (f : PromQuery → μ) (counters : List String) : List σ :=
  counters.flatMap fun counterName =>
    promCountToDatadogRate counterName (f (.rate counterName))

/-- The raw-count-derived part of the batch, when the backend answers `pq`
with `f pq`. -/
def countSeriesOf {μ σ : Type} (promCountToDatadogCount : String → μ → List σ)
    (f : PromQuery → μ) (counters : List String) : List σ :=
  counters.flatMap fun counterName =>
    promCountToDatadogCount counterName (f (.raw counterName))

/-- `RetryInterval = 3 * time.Second`, in seconds. -/
def retryIntervalSeconds : Nat := 3

/-- One outcome of the three-way `select` in `func (w *Worker) Run`
(`tickError` = a receive on `errs`, `timerFire` = a receive on
`ticker.C`, `interrupt` = a receive on the interrupt channel), plus
`tickCrash` for a panic of the running tick's goroutine, which is not a
`select` case but kills the process while `Run` is blocked. -/
inductive LoopEvent (ε : Type) where
  | tickError (e : ε)
  | timerFire
  | interrupt
  | tickCrash

/-- Whether an event ends the run (a clean `return` on interrupt, or the
process dying with a tick panic). -/
def LoopEvent.isTerminal {ε : Type} : LoopEvent ε → Bool
  | .interrupt => true
  | .tickCrash => true
  | _ => false

/-- Whether an event is a received tick error. -/
def LoopEvent.isTickError {ε : Type} : LoopEvent ε → Bool
  | .tickError _ => true
  | _ => false

/-- How a run of the scheduler loop ended, if it did. -/
inductive RunHalt where
  | interrupted
  | crashed
deriving DecidableEq, Repr

/-- Observable behaviour of `func (w *Worker) Run` on a finite script of
`select` outcomes: how many ticks were launched (`go w.do(errs)` runs at
the top of every iteration, so one more tick is launched after every
non-terminal event), the total seconds slept in `time.Sleep(RetryInterval)`
backoffs, and whether and how the loop ended (`none`: still waiting in
`select` after the script). -/
structure RunResult where
  launched : Nat
  backoffSeconds : Nat
  halted : Option RunHalt
deriving DecidableEq, Repr

/-- The `for { go w.do(errs); select { ... } }` loop of
`func (w *Worker) Run`, driven by a script of `select` outcomes. -/
def runLoop {ε : Type} : List (LoopEvent ε) → RunResult
  | [] => { launched := 1, backoffSeconds := 0, halted := none }
  | ev :: rest =>
    match ev with
    | .interrupt => { launched := 1, backoffSeconds := 0, halted := some .interrupted }
    | .tickCrash => { launched := 1, backoffSeconds := 0, halted := some .crashed }
    | .tickError _ =>
      let r := runLoop rest
      { launched := r.launched + 1,
        backoffSeconds := r.backoffSeconds + retryIntervalSeconds, halted := r.halted }
    | .timerFire =>
      let r := runLoop rest
      { launched := r.launched + 1, backoffSeconds := r.backoffSeconds, halted := r.halted }

/-- Sample backend for concrete runs: every query succeeds with matrix `0`. -/
def egQueryOk : PromQuery → PromRange → Except String Nat := fun _ _ => .ok 0

/-- Sample backend for concrete runs: rate queries fail, the rest succeed. -/
def egQueryRateFails : PromQuery → PromRange → Except String Nat := fun pq _ =>
  match pq with
  | .rate _ => .error "rate query failed"
  | _ => .ok 0

/-- Sample histogram translator for concrete runs. -/
def egHistogramToGauge : String → Rat → Nat → List String := fun bucketName _ _ =>
  ["gauge:" ++ bucketName]

/-- Sample rate translator for concrete runs. -/
def egCountToRate : String → Nat → List String := fun counterName _ =>
  ["rate:" ++ counterName]

/-- Sample count translator for concrete runs. -/
def egCountToCount : String → Nat → List String := fun counterName _ =>
  ["count:" ++ counterName]

/-- Sample submitter for concrete runs: always succeeds. -/
def egSubmitOk : List String → Option String := fun _ => none

/-! ## Theorems -/

/-- The truncating remainder flips sign with its dividend. -/
lemma tmod_neg_dividend (a b : Int) : Int.tmod (-a) b = -(Int.tmod a b) := by
  simp [Int.tmod_def, Int.neg_tdiv]
  ring

/-- Truncating remainder lies within `(-s, s)` for a positive divisor. -/
lemma tmod_bounds (a : Int) {s : Int} (hs : 0 < s) :
    -(s - 1) ≤ a.tmod s ∧ a.tmod s ≤ s - 1 := by
  rcases le_or_lt 0 a with ha | ha
  · have h1 := Int.tmod_nonneg s ha
    have h2 := Int.tmod_lt_of_pos a hs
    omega
  · have h1 := Int.tmod_nonneg s (by omega : (0:Int) ≤ -a)
    have h2 := Int.tmod_lt_of_pos (-a) hs
    rw [tmod_neg_dividend] at h1 h2
    omega

/-- `a.tdiv s * s` is within `s - 1` of `a` on either side, for `s > 0`. -/
lemma tdiv_mul_self_bounds (a : Int) {s : Int} (hs : 0 < s) :
    a - (s - 1) ≤ a.tdiv s * s ∧ a.tdiv s * s ≤ a + (s - 1) := by
  have h := Int.tdiv_add_tmod a s
  have hb := tmod_bounds a hs
  constructor <;> nlinarith [hb.1, hb.2]

/-- C1: for every query interval, step of at least one second and
wall-clock time, `calcRange` succeeds and the window has `start < end`,
both boundaries aligned to the step, and a span of at least 1.2 times the
query interval (stated integrally: `5 * (end - start) ≥ 6 * qi`). -/
theorem calcRange_window_invariants (now qi s : Int) (hqi : 0 ≤ qi) (hs : 1 ≤ s) :
    ∃ r : PromRange, calcRange now qi s = some r ∧
      r.start < r.stop ∧ r.start % s = 0 ∧ r.stop % s = 0 ∧
      5 * (r.stop - r.start) ≥ 6 * qi := by
  have hs0 : s ≠ 0 := by omega
  have hspos : (0:Int) < s := by omega
  have hb1 := tdiv_mul_self_bounds (Int.tdiv now 60 * 60 - queryWindowSeconds qi) hspos
  have hb2 := tdiv_mul_self_bounds (Int.tdiv now 60 * 60) hspos
  have hW : qi * 6 - 4 ≤ queryWindowSeconds qi * 5 ∧ queryWindowSeconds qi * 5 ≤ qi * 6 + 4 := by
    unfold queryWindowSeconds
    exact tdiv_mul_self_bounds (qi * 6) (by norm_num : (0:Int) < 5)
  have hWnn : 0 ≤ queryWindowSeconds qi := by
    rcases hW with ⟨hWl, hWr⟩
    omega
  refine ⟨{ start := (Int.tdiv (Int.tdiv now 60 * 60 - queryWindowSeconds qi) s - 1) * s
            stop := (Int.tdiv (Int.tdiv now 60 * 60) s + 1) * s
            step := s }, ?_, ?_, ?_, ?_, ?_⟩
  · unfold calcRange
    rw [if_neg hs0]
  · -- start < stop
    dsimp only
    rw [sub_mul, add_mul, one_mul]
    linarith [hb1.2, hb2.1]
  · dsimp only
    exact Int.mul_emod_left _ _
  · dsimp only
    exact Int.mul_emod_left _ _
  · -- 5 * (stop - start) ≥ 6 * qi
    dsimp only
    have hexp : (Int.tdiv (Int.tdiv now 60 * 60) s + 1) * s -
        (Int.tdiv (Int.tdiv now 60 * 60 - queryWindowSeconds qi) s - 1) * s =
        Int.tdiv (Int.tdiv now 60 * 60) s * s -
          Int.tdiv (Int.tdiv now 60 * 60 - queryWindowSeconds qi) s * s + 2 * s := by
      ring
    rw [ge_iff_le, hexp]
    linarith [hb1.2, hb2.1, hW.1]

/-- Witness for C1 at `now = 1000`, `queryInterval = 60s`, `step = 7s`. -/
theorem calcRange_window_invariants_witness :
    ∃ r : PromRange, calcRange 1000 60 7 = some r ∧
      r.start < r.stop ∧ r.start % 7 = 0 ∧ r.stop % 7 = 0 ∧
      5 * (r.stop - r.start) ≥ 6 * 60 :=
  calcRange_window_invariants 1000 60 7 (by norm_num) (by norm_num)

/-- C3 counterexample: with `queryInterval = 60s`, `step = 15s` and the
second tick one interval after the first (`now = 47` then `107`), the two
windows overlap by `15 - (-15) = 30` seconds, which is not 20% of the
query interval (12 seconds). -/
theorem calcRange_successive_overlap_not_exact :
    calcRange 47 60 15 = some { start := -75, stop := 15, step := 15 } ∧
    calcRange 107 60 15 = some { start := -15, stop := 75, step := 15 } ∧
    ¬ (5 * ((15 : Int) - (-15)) = 60) := by decide

/-- C3 (amended): when the tick interval equals the query interval and the
query interval is a whole number of minutes, the windows of two successive
ticks overlap by at least 20% of the query interval (strictly more, thanks
to the one-step outward padding); the overlap is in general not exactly
20%. -/
theorem calcRange_successive_overlap_at_least_twenty_percent
    (now m s : Int) (hnow : 0 ≤ now) (hm : 0 ≤ m) (hs : 1 ≤ s) :
    ∃ r1 r2 : PromRange,
      calcRange now (60 * m) s = some r1 ∧
      calcRange (now + 60 * m) (60 * m) s = some r2 ∧
      5 * (r1.stop - r2.start) ≥ 60 * m := by
  have hs0 : s ≠ 0 := by omega
  have hspos : (0:Int) < s := by omega
  have hshift : Int.tdiv (now + 60 * m) 60 = Int.tdiv now 60 + m := by
    rw [Int.tdiv_eq_ediv (by omega) (by norm_num), Int.tdiv_eq_ediv hnow (by norm_num),
      Int.add_mul_ediv_left now m (by norm_num)]
  have hW : 60 * m * 6 - 4 ≤ queryWindowSeconds (60 * m) * 5 ∧
      queryWindowSeconds (60 * m) * 5 ≤ 60 * m * 6 + 4 := by
    unfold queryWindowSeconds
    exact tdiv_mul_self_bounds (60 * m * 6) (by norm_num : (0:Int) < 5)
  refine ⟨{ start := (Int.tdiv (Int.tdiv now 60 * 60 - queryWindowSeconds (60 * m)) s - 1) * s
            stop := (Int.tdiv (Int.tdiv now 60 * 60) s + 1) * s
            step := s },
          { start := (Int.tdiv (Int.tdiv now 60 * 60 + m * 60 - queryWindowSeconds (60 * m)) s - 1) * s
            stop := (Int.tdiv (Int.tdiv now 60 * 60 + m * 60) s + 1) * s
            step := s }, ?_, ?_, ?_⟩
  · unfold calcRange
    rw [if_neg hs0]
  · unfold calcRange
    rw [if_neg hs0, hshift, add_mul]
  · dsimp only
    have hb2 := (tdiv_mul_self_bounds (Int.tdiv now 60 * 60) hspos).1
    have hb1 := (tdiv_mul_self_bounds
      (Int.tdiv now 60 * 60 + m * 60 - queryWindowSeconds (60 * m)) hspos).2
    have hexp : (Int.tdiv (Int.tdiv now 60 * 60) s + 1) * s -
        (Int.tdiv (Int.tdiv now 60 * 60 + m * 60 - queryWindowSeconds (60 * m)) s - 1) * s =
        Int.tdiv (Int.tdiv now 60 * 60) s * s -
          Int.tdiv (Int.tdiv now 60 * 60 + m * 60 - queryWindowSeconds (60 * m)) s * s +
          2 * s := by
      ring
    rw [ge_iff_le, hexp]
    linarith [hW.1]

/-- Witness for the amended C3 at `now = 0`, `queryInterval = 60s`,
`step = 15s`, second tick at `now = 60`. -/
theorem calcRange_successive_overlap_witness :
    ∃ r1 r2 : PromRange,
      calcRange 0 (60 * 1) 15 = some r1 ∧
      calcRange (0 + 60 * 1) (60 * 1) 15 = some r2 ∧
      5 * (r1.stop - r2.start) ≥ 60 * 1 :=
  calcRange_successive_overlap_at_least_twenty_percent 0 1 15 (by norm_num) (by norm_num)
    (by norm_num)

/-- C4 counterexample: at `now` = 12:00:47 (second 43247 of the day, with
12:00:00 = 43200), `queryInterval = 60s`, `step = 15s`, the window start
produced by the code is 11:58:30 (43110), not the claimed 11:58:45
(43125): the one-step outward padding is applied after flooring. -/
theorem calcRange_noon_start_is_not_115845 :
    calcRange 43247 60 15 = some { start := 43110, stop := 43215, step := 15 } ∧
    (43110 : Int) ≠ 43125 := by decide

/-- C4 (amended): with `queryInterval = 60s`, `step = 15s` and
`now` = 12:00:47 (43247), the effective window is 72s, the end is
12:00:15 (43215) and the start is 11:58:30 (43110). -/
theorem calcRange_noon_example :
    queryWindowSeconds 60 = 72 ∧
    calcRange 43247 60 15 = some { start := 43110, stop := 43215, step := 15 } := by decide

/-- If the inner histogram loop completes, every planned query of that
pass got a matrix. -/
lemma histLoopInner_ok_queries {ε μ σ : Type}
    {queryMetrics : PromQuery → PromRange → Except ε μ} {queryRange : PromRange}
    {tr : String → Rat → μ → List σ} {quantile : Rat} {histograms : List String}
    {issued : List PromQuery} {series : List σ}
    (h : histLoopInner queryMetrics queryRange tr quantile histograms =
      .ok issued series) :
    ∀ b ∈ histograms, ∃ matrix,
      queryMetrics (.histogram quantile b) queryRange = .ok matrix := by
  induction histograms generalizing issued series with
  | nil => intro b hb; cases hb
  | cons b rest ih =>
    intro x hx
    rw [histLoopInner] at h
    rcases hq : queryMetrics (.histogram quantile b) queryRange with e | matrix
    · rw [hq] at h
      cases h
    · rw [hq] at h
      rcases List.mem_cons.mp hx with hx | hx
      · subst hx
        exact ⟨matrix, hq⟩
      · rcases hrest : histLoopInner queryMetrics queryRange tr quantile rest with
          ⟨is, ss⟩ | ⟨is, e⟩
        · exact ih hrest x hx
        · rw [hrest] at h
          cases h

/-- If the histogram pass completes, every planned histogram query got a
matrix. -/
lemma histLoop_ok_queries {ε μ σ : Type}
    {queryMetrics : PromQuery → PromRange → Except ε μ} {queryRange : PromRange}
    {tr : String → Rat → μ → List σ} {quantiles : List Rat} {histograms : List String}
    {issued : List PromQuery} {series : List σ}
    (h : histLoop queryMetrics queryRange tr quantiles histograms = .ok issued series) :
    ∀ pq ∈ plannedHistQueries quantiles histograms, ∃ matrix,
      queryMetrics pq queryRange = .ok matrix := by
  induction quantiles generalizing issued series with
  | nil => intro pq hpq; cases hpq
  | cons quantile rest ih =>
    intro pq hpq
    rw [histLoop] at h
    rcases hinner : histLoopInner queryMetrics queryRange tr quantile histograms with
      ⟨is, ss⟩ | ⟨is, e⟩
    · rw [hinner] at h
      rcases houter : histLoop queryMetrics queryRange tr rest histograms with
        ⟨is2, ss2⟩ | ⟨is2, e⟩
      · rw [plannedHistQueries, List.flatMap_cons] at hpq
        rcases List.mem_append.mp hpq with hpq | hpq
        · rcases List.mem_map.mp hpq with ⟨b, hb, rfl⟩
          exact histLoopInner_ok_queries hinner b hb
        · exact ih houter pq hpq
      · rw [houter] at h
        cases h
    · rw [hinner] at h
      cases h

/-- If the counter loop completes, every planned rate and raw-count query
got a matrix. -/
lemma counterLoop_ok_queries {ε μ σ : Type}
    {queryMetrics : PromQuery → PromRange → Except ε μ} {queryRange : PromRange}
    {rTr cTr : String → μ → List σ} {counters : List String}
    {issued : List PromQuery} {rateSeries countSeries : List σ}
    (h : counterLoop queryMetrics queryRange rTr cTr counters =
      .ok issued rateSeries countSeries) :
    ∀ pq ∈ plannedCounterQueries counters, ∃ matrix,
      queryMetrics pq queryRange = .ok matrix := by
  induction counters generalizing issued rateSeries countSeries with
  | nil => intro pq hpq; cases hpq
  | cons c rest ih =>
    intro pq hpq
    rw [counterLoop] at h
    rcases hq1 : queryMetrics (.rate c) queryRange with e | matrix1
    · rw [hq1] at h
      cases h
    · rw [hq1] at h
      rcases hq2 : queryMetrics (.raw c) queryRange with e | matrix2
      · rw [hq2] at h
        cases h
      · rw [hq2] at h
        rcases hrest : counterLoop queryMetrics queryRange rTr cTr rest with
          ⟨is, rs, ks⟩ | ⟨is, e⟩
        · rw [plannedCounterQueries, List.flatMap_cons] at hpq
          rcases List.mem_append.mp hpq with hpq | hpq
          · rcases List.mem_cons.mp hpq with rfl | hpq
            · exact ⟨matrix1, hq1⟩
            · rcases List.mem_cons.mp hpq with rfl | hpq
              · exact ⟨matrix2, hq2⟩
              · cases hpq
          · exact ih hrest pq hpq
        · rw [hrest] at h
          cases h

/-- When the backend answers every histogram query of one quantile with
`f`, the inner loop completes with the planned queries and the translated
series. -/
lemma histLoopInner_of_fn {ε μ σ : Type}
    (queryMetrics : PromQuery → PromRange → Except ε μ) (queryRange : PromRange)
    (tr : String → Rat → μ → List σ) (quantile : Rat) (f : PromQuery → μ)
    (histograms : List String)
    (h : ∀ b ∈ histograms, queryMetrics (.histogram quantile b) queryRange =
      .ok (f (.histogram quantile b))) :
    histLoopInner queryMetrics queryRange tr quantile histograms =
      .ok (histograms.map (PromQuery.histogram quantile))
        (histograms.flatMap fun b => tr b quantile (f (.histogram quantile b))) := by
  induction histograms with
  | nil => rfl
  | cons b rest ih =>
    have hb := h b (List.mem_cons_self b rest)
    rw [histLoopInner, hb, ih fun x hx => h x (List.mem_cons_of_mem b hx),
      List.map_cons, List.flatMap_cons]

/-- When the backend answers every planned histogram query with `f`, the
histogram pass completes with the planned queries and the
histogram-derived batch. -/
lemma histLoop_of_fn {ε μ σ : Type}
    (queryMetrics : PromQuery → PromRange → Except ε μ) (queryRange : PromRange)
    (tr : String → Rat → μ → List σ) (f : PromQuery → μ)
    (quantiles : List Rat) (histograms : List String)
    (h : ∀ pq ∈ plannedHistQueries quantiles histograms,
      queryMetrics pq queryRange = .ok (f pq)) :
    histLoop queryMetrics queryRange tr quantiles histograms =
      .ok (plannedHistQueries quantiles histograms)
        (histogramSeriesOf tr f quantiles histograms) := by
  induction quantiles with
  | nil => rfl
  | cons quantile rest ih =>
    have hinner : ∀ b ∈ histograms,
        queryMetrics (.histogram quantile b) queryRange =
          .ok (f (.histogram quantile b)) := by
      intro b hb
      refine h _ ?_
      rw [plannedHistQueries, List.flatMap_cons]
      exact List.mem_append_left _ (List.mem_map_of_mem _ hb)
    have houter : ∀ pq ∈ plannedHistQueries rest histograms,
        queryMetrics pq queryRange = .ok (f pq) := by
      intro pq hpq
      refine h _ ?_
      rw [plannedHistQueries, List.flatMap_cons]
      exact List.mem_append_right _ hpq
    rw [histLoop, histLoopInner_of_fn queryMetrics queryRange tr quantile f histograms hinner,
      ih houter]
    simp [plannedHistQueries, histogramSeriesOf, List.flatMap_cons]

/-- When the backend answers every planned counter query with `f`, the
counter loop completes with the planned queries and the rate- and
count-derived batches. -/
lemma counterLoop_of_fn {ε μ σ : Type}
    (queryMetrics : PromQuery → PromRange → Except ε μ) (queryRange : PromRange)
    (rTr cTr : String → μ → List σ) (f : PromQuery → μ) (counters : List String)
    (h : ∀ pq ∈ plannedCounterQueries counters,
      queryMetrics pq queryRange = .ok (f pq)) :
    counterLoop queryMetrics queryRange rTr cTr counters =
      .ok (plannedCounterQueries counters) (rateSeriesOf rTr f counters)
        (countSeriesOf cTr f counters) := by
  induction counters with
  | nil => rfl
  | cons c rest ih =>
    have hmem : ∀ pq ∈ plannedCounterQueries rest,
        queryMetrics pq queryRange = .ok (f pq) := by
      intro pq hpq
      refine h _ ?_
      rw [plannedCounterQueries, List.flatMap_cons]
      exact List.mem_append_right _ hpq
    have h1 : queryMetrics (.rate c) queryRange = .ok (f (.rate c)) := by
      refine h _ ?_
      rw [plannedCounterQueries, List.flatMap_cons]
      exact List.mem_append_left _ (List.mem_cons_self _ _)
    have h2 : queryMetrics (.raw c) queryRange = .ok (f (.raw c)) := by
      refine h _ ?_
      rw [plannedCounterQueries, List.flatMap_cons]
      exact List.mem_append_left _ (List.mem_cons_of_mem _ (List.mem_cons_self _ _))
    rw [counterLoop, h1, h2, ih hmem]
    simp [plannedCounterQueries, rateSeriesOf, countSeriesOf, List.flatMap_cons]

/-- C2: a tick never submits partially.  If the catalog listing fails,
`SubmitMetrics` is not invoked (the tick panics); if any planned range
query fails, `SubmitMetrics` is not invoked; and if every planned query
succeeds, `SubmitMetrics` receives the whole batch. -/
theorem doTick_all_or_nothing {ε μ σ : Type} (now qi s : Int)
    (listMetrics : Except ε (List String × List String))
    (queryMetrics : PromQuery → PromRange → Except ε μ)
    (hTr : String → Rat → μ → List σ) (rTr cTr : String → μ → List σ)
    (submitMetrics : List σ → Option ε) (quantiles : List Rat) :
    (∀ e, listMetrics = .error e →
      (doTick now qi s listMetrics queryMetrics hTr rTr cTr submitMetrics
        quantiles).submitted = none) ∧
    (∀ histograms counters r, listMetrics = .ok (histograms, counters) →
      calcRange now qi s = some r →
      (∃ pq ∈ plannedHistQueries quantiles histograms ++ plannedCounterQueries counters,
        ∃ e, queryMetrics pq r = .error e) →
      (doTick now qi s listMetrics queryMetrics hTr rTr cTr submitMetrics
        quantiles).submitted = none) ∧
    (∀ histograms counters r (f : PromQuery → μ), listMetrics = .ok (histograms, counters) →
      calcRange now qi s = some r →
      (∀ pq ∈ plannedHistQueries quantiles histograms ++ plannedCounterQueries counters,
        queryMetrics pq r = .ok (f pq)) →
      (doTick now qi s listMetrics queryMetrics hTr rTr cTr submitMetrics
        quantiles).submitted =
        some ((histogramSeriesOf hTr f quantiles histograms ++ rateSeriesOf rTr f counters) ++
          countSeriesOf cTr f counters)) := by
  refine ⟨?_, ?_, ?_⟩
  · intro e hl
    subst hl
    unfold doTick
    cases calcRange now qi s <;> rfl
  · intro histograms counters r hl hr hfail
    subst hl
    obtain ⟨pq, hmem, e, he⟩ := hfail
    simp only [doTick, hr]
    rcases hh : histLoop queryMetrics r hTr quantiles histograms with ⟨is, ss⟩ | ⟨is, e1⟩
    · rcases hc : counterLoop queryMetrics r rTr cTr counters with ⟨is2, rs, ks⟩ | ⟨is2, e2⟩
      · exfalso
        rcases List.mem_append.mp hmem with hmem | hmem
        · obtain ⟨matrix, hm⟩ := histLoop_ok_queries hh pq hmem
          rw [he] at hm
          cases hm
        · obtain ⟨matrix, hm⟩ := counterLoop_ok_queries hc pq hmem
          rw [he] at hm
          cases hm
      · rfl
    · rfl
  · intro histograms counters r f hl hr hall
    subst hl
    have h1 : ∀ pq ∈ plannedHistQueries quantiles histograms,
        queryMetrics pq r = .ok (f pq) :=
      fun pq hpq => hall pq (List.mem_append_left _ hpq)
    have h2 : ∀ pq ∈ plannedCounterQueries counters,
        queryMetrics pq r = .ok (f pq) :=
      fun pq hpq => hall pq (List.mem_append_right _ hpq)
    simp only [doTick, hr, histLoop_of_fn queryMetrics r hTr f quantiles histograms h1,
      counterLoop_of_fn queryMetrics r rTr cTr f counters h2]
    cases submitMetrics ((histogramSeriesOf hTr f quantiles histograms ++
      rateSeriesOf rTr f counters) ++ countSeriesOf cTr f counters) <;> rfl

/-- Witness for C2: a failed listing and a failed rate query each leave
`submitted = none`. -/
theorem doTick_all_or_nothing_witness :
    (doTick (μ := Nat) (σ := String) 1000 60 15 (.error "list failed") egQueryOk
      egHistogramToGauge egCountToRate egCountToCount egSubmitOk [1/2]).submitted = none ∧
    (doTick 1000 60 15 (.ok (["latency_bucket"], ["requests_total"])) egQueryRateFails
      egHistogramToGauge egCountToRate egCountToCount egSubmitOk [1/2]).submitted = none :=
  ⟨(doTick_all_or_nothing 1000 60 15 (.error "list failed") egQueryOk egHistogramToGauge
      egCountToRate egCountToCount egSubmitOk [1/2]).1 "list failed" rfl,
   (doTick_all_or_nothing 1000 60 15 (.ok (["latency_bucket"], ["requests_total"]))
      egQueryRateFails egHistogramToGauge egCountToRate egCountToCount egSubmitOk [1/2]).2.1
     ["latency_bucket"] ["requests_total"] { start := 870, stop := 975, step := 15 } rfl
     (by decide)
     ⟨.rate "requests_total", by decide, "rate query failed", rfl⟩⟩

/-- Query-kind counts of the planned histogram queries: all `Q * H` of
them are histogram queries, none is a rate or raw query. -/
lemma plannedHistQueries_counts (quantiles : List Rat) (histograms : List String) :
    (plannedHistQueries quantiles histograms).countP PromQuery.isHistogramQuery =
      quantiles.length * histograms.length ∧
    (plannedHistQueries quantiles histograms).countP PromQuery.isRateQuery = 0 ∧
    (plannedHistQueries quantiles histograms).countP PromQuery.isRawQuery = 0 := by
  induction quantiles with
  | nil => exact ⟨by simp [plannedHistQueries], rfl, rfl⟩
  | cons quantile rest ih =>
    rcases ih with ⟨ih1, ih2, ih3⟩
    have hstep : plannedHistQueries (quantile :: rest) histograms =
        histograms.map (PromQuery.histogram quantile) ++ plannedHistQueries rest histograms := by
      rw [plannedHistQueries, List.flatMap_cons]
      rfl
    refine ⟨?_, ?_, ?_⟩
    · rw [hstep, List.countP_append, ih1, List.countP_map]
      have hc : (PromQuery.isHistogramQuery ∘ PromQuery.histogram quantile) =
          fun _ => true := rfl
      rw [hc, List.countP_true, List.length_cons]
      ring
    · rw [hstep, List.countP_append, ih2, List.countP_map]
      have hc : (PromQuery.isRateQuery ∘ PromQuery.histogram quantile) =
          fun _ => false := rfl
      rw [hc]
      simp
    · rw [hstep, List.countP_append, ih3, List.countP_map]
      have hc : (PromQuery.isRawQuery ∘ PromQuery.histogram quantile) =
          fun _ => false := rfl
      rw [hc]
      simp

/-- Query-kind counts of the planned counter queries: `C` rate queries,
`C` raw queries, no histogram query. -/
lemma plannedCounterQueries_counts (counters : List String) :
    (plannedCounterQueries counters).countP PromQuery.isHistogramQuery = 0 ∧
    (plannedCounterQueries counters).countP PromQuery.isRateQuery = counters.length ∧
    (plannedCounterQueries counters).countP PromQuery.isRawQuery = counters.length := by
  induction counters with
  | nil => exact ⟨rfl, rfl, rfl⟩
  | cons c rest ih =>
    rcases ih with ⟨ih1, ih2, ih3⟩
    have hstep : plannedCounterQueries (c :: rest) =
        PromQuery.rate c :: PromQuery.raw c :: plannedCounterQueries rest := by
      rw [plannedCounterQueries, List.flatMap_cons]
      rfl
    refine ⟨?_, ?_, ?_⟩ <;>
      rw [hstep] <;>
      simp [List.countP_cons, PromQuery.isHistogramQuery, PromQuery.isRateQuery,
        PromQuery.isRawQuery, ih1, ih2, ih3]

/-- C7: a successful tick issues exactly the planned queries, in loop
order: `Q * H` histogram queries (one per (quantile, histogram-name)
pair), `C` rate queries and `C` raw-count queries, and submits the batch
made of the series of all results. -/
theorem doTick_issues_planned_queries {ε μ σ : Type} (now qi s : Int)
    (histograms counters : List String) (quantiles : List Rat)
    (queryMetrics : PromQuery → PromRange → Except ε μ)
    (hTr : String → Rat → μ → List σ) (rTr cTr : String → μ → List σ)
    (submitMetrics : List σ → Option ε) (r : PromRange) (f : PromQuery → μ)
    (hr : calcRange now qi s = some r)
    (hq : ∀ pq ∈ plannedHistQueries quantiles histograms ++ plannedCounterQueries counters,
      queryMetrics pq r = .ok (f pq)) :
    ((doTick now qi s (.ok (histograms, counters)) queryMetrics hTr rTr cTr submitMetrics
        quantiles).issued =
      plannedHistQueries quantiles histograms ++ plannedCounterQueries counters) ∧
    ((doTick now qi s (.ok (histograms, counters)) queryMetrics hTr rTr cTr submitMetrics
        quantiles).issued.countP PromQuery.isHistogramQuery =
      quantiles.length * histograms.length) ∧
    ((doTick now qi s (.ok (histograms, counters)) queryMetrics hTr rTr cTr submitMetrics
        quantiles).issued.countP PromQuery.isRateQuery = counters.length) ∧
    ((doTick now qi s (.ok (histograms, counters)) queryMetrics hTr rTr cTr submitMetrics
        quantiles).issued.countP PromQuery.isRawQuery = counters.length) ∧
    ((doTick now qi s (.ok (histograms, counters)) queryMetrics hTr rTr cTr submitMetrics
        quantiles).submitted =
      some ((histogramSeriesOf hTr f quantiles histograms ++ rateSeriesOf rTr f counters) ++
        countSeriesOf cTr f counters)) := by
  have h1 : ∀ pq ∈ plannedHistQueries quantiles histograms,
      queryMetrics pq r = .ok (f pq) :=
    fun pq hpq => hq pq (List.mem_append_left _ hpq)
  have h2 : ∀ pq ∈ plannedCounterQueries counters,
      queryMetrics pq r = .ok (f pq) :=
    fun pq hpq => hq pq (List.mem_append_right _ hpq)
  have hh := histLoop_of_fn queryMetrics r hTr f quantiles histograms h1
  have hc := counterLoop_of_fn queryMetrics r rTr cTr f counters h2
  have hcount1 := plannedHistQueries_counts quantiles histograms
  have hcount2 := plannedCounterQueries_counts counters
  simp only [doTick, hr, hh, hc]
  cases submitMetrics ((histogramSeriesOf hTr f quantiles histograms ++
      rateSeriesOf rTr f counters) ++ countSeriesOf cTr f counters) <;>
    refine ⟨rfl, ?_, ?_, ?_, rfl⟩ <;>
    simp [List.countP_append, hcount1.1, hcount1.2.1, hcount1.2.2, hcount2.1,
      hcount2.2.1, hcount2.2.2]

/-- Witness for C7 on the spec's example:
histograms = ["latency_bucket"], counters = ["requests_total"],
quantiles = [0.5, 0.99], every query succeeding. -/
theorem doTick_issues_planned_queries_witness :
    ((doTick (ε := String) 1000 60 15 (.ok (["latency_bucket"], ["requests_total"]))
        egQueryOk egHistogramToGauge egCountToRate egCountToCount egSubmitOk
        [1/2, 99/100]).issued =
      plannedHistQueries [1/2, 99/100] ["latency_bucket"] ++
        plannedCounterQueries ["requests_total"]) ∧
    ((doTick (ε := String) 1000 60 15 (.ok (["latency_bucket"], ["requests_total"]))
        egQueryOk egHistogramToGauge egCountToRate egCountToCount egSubmitOk
        [1/2, 99/100]).issued.countP PromQuery.isHistogramQuery =
      [(1:Rat)/2, 99/100].length * ["latency_bucket"].length) ∧
    ((doTick (ε := String) 1000 60 15 (.ok (["latency_bucket"], ["requests_total"]))
        egQueryOk egHistogramToGauge egCountToRate egCountToCount egSubmitOk
        [1/2, 99/100]).issued.countP PromQuery.isRateQuery = ["requests_total"].length) ∧
    ((doTick (ε := String) 1000 60 15 (.ok (["latency_bucket"], ["requests_total"]))
        egQueryOk egHistogramToGauge egCountToRate egCountToCount egSubmitOk
        [1/2, 99/100]).issued.countP PromQuery.isRawQuery = ["requests_total"].length) ∧
    ((doTick (ε := String) 1000 60 15 (.ok (["latency_bucket"], ["requests_total"]))
        egQueryOk egHistogramToGauge egCountToRate egCountToCount egSubmitOk
        [1/2, 99/100]).submitted =
      some ((histogramSeriesOf egHistogramToGauge (fun _ => 0) [1/2, 99/100]
          ["latency_bucket"] ++ rateSeriesOf egCountToRate (fun _ => 0) ["requests_total"]) ++
        countSeriesOf egCountToCount (fun _ => 0) ["requests_total"])) :=
  doTick_issues_planned_queries 1000 60 15 ["latency_bucket"] ["requests_total"]
    [1/2, 99/100] egQueryOk egHistogramToGauge egCountToRate egCountToCount egSubmitOk
    { start := 870, stop := 975, step := 15 } (fun _ => 0) rfl (fun _ _ => rfl)

/-- C8: the batch a successful tick submits is the histogram-derived
series, then the rate-derived series, then the raw-count-derived series,
and its length is the sum of the three group lengths. -/
theorem doTick_batch_composition {ε μ σ : Type} (now qi s : Int)
    (histograms counters : List String) (quantiles : List Rat)
    (queryMetrics : PromQuery → PromRange → Except ε μ)
    (hTr : String → Rat → μ → List σ) (rTr cTr : String → μ → List σ)
    (submitMetrics : List σ → Option ε) (r : PromRange) (f : PromQuery → μ)
    (hr : calcRange now qi s = some r)
    (hq : ∀ pq ∈ plannedHistQueries quantiles histograms ++ plannedCounterQueries counters,
      queryMetrics pq r = .ok (f pq)) :
    ((doTick now qi s (.ok (histograms, counters)) queryMetrics hTr rTr cTr submitMetrics
        quantiles).submitted =
      some ((histogramSeriesOf hTr f quantiles histograms ++ rateSeriesOf rTr f counters) ++
        countSeriesOf cTr f counters)) ∧
    ((histogramSeriesOf hTr f quantiles histograms ++ rateSeriesOf rTr f counters) ++
        countSeriesOf cTr f counters).length =
      (histogramSeriesOf hTr f quantiles histograms).length +
        (rateSeriesOf rTr f counters).length + (countSeriesOf cTr f counters).length := by
  have h1 : ∀ pq ∈ plannedHistQueries quantiles histograms,
      queryMetrics pq r = .ok (f pq) :=
    fun pq hpq => hq pq (List.mem_append_left _ hpq)
  have h2 : ∀ pq ∈ plannedCounterQueries counters,
      queryMetrics pq r = .ok (f pq) :=
    fun pq hpq => hq pq (List.mem_append_right _ hpq)
  have hh := histLoop_of_fn queryMetrics r hTr f quantiles histograms h1
  have hc := counterLoop_of_fn queryMetrics r rTr cTr f counters h2
  simp only [doTick, hr, hh, hc]
  cases submitMetrics ((histogramSeriesOf hTr f quantiles histograms ++
      rateSeriesOf rTr f counters) ++ countSeriesOf cTr f counters) <;>
    exact ⟨rfl, by simp only [List.length_append]⟩

/-- Witness for C8 with one histogram, one counter and one quantile. -/
theorem doTick_batch_composition_witness :
    ((doTick (ε := String) 1000 60 15 (.ok (["h1"], ["c1"])) egQueryOk egHistogramToGauge
        egCountToRate egCountToCount egSubmitOk [1/2]).submitted =
      some ((histogramSeriesOf egHistogramToGauge (fun _ => 0) [1/2] ["h1"] ++
          rateSeriesOf egCountToRate (fun _ => 0) ["c1"]) ++
        countSeriesOf egCountToCount (fun _ => 0) ["c1"])) ∧
    ((histogramSeriesOf egHistogramToGauge (fun _ => 0) [1/2] ["h1"] ++
        rateSeriesOf egCountToRate (fun _ => 0) ["c1"]) ++
      countSeriesOf egCountToCount (fun _ => 0) ["c1"]).length =
      (histogramSeriesOf egHistogramToGauge (fun _ => 0) [1/2] ["h1"]).length +
        (rateSeriesOf egCountToRate (fun _ => 0) ["c1"]).length +
        (countSeriesOf egCountToCount (fun _ => 0) ["c1"]).length :=
  doTick_batch_composition 1000 60 15 ["h1"] ["c1"] [1/2] egQueryOk egHistogramToGauge
    egCountToRate egCountToCount egSubmitOk { start := 870, stop := 975, step := 15 }
    (fun _ => 0) rfl (fun _ _ => rfl)

/-- C5 counterexample: a negative step duration of -15s does NOT fail
fast.  `int64((-15s).Seconds()) = -15` is nonzero, so `calcRange` divides
without panicking and the tick issues its range queries. -/
theorem doTick_negative_step_still_queries :
    ((-15 : Int) < 0) ∧
    (doTick 1000 60 (-15) (.ok (["latency_bucket"], [])) egQueryOk egHistogramToGauge
        egCountToRate egCountToCount egSubmitOk [1/2]).issued =
      [.histogram (1/2) "latency_bucket"] := by
  exact ⟨by decide, rfl⟩

/-- C5 (amended): only a step whose whole-second truncation is zero makes
the tick fail before any query: `calcRange` panics on its division by
zero, before `ListMetrics` and before any `QueryMetrics` call.  (A step
of -1s or less yields a nonzero negative `stepSeconds` and the tick
proceeds to query, as the counterexample shows.) -/
theorem doTick_zero_step_fails_before_queries {ε μ σ : Type} (now qi stepSeconds : Int)
    (listMetrics : Except ε (List String × List String))
    (queryMetrics : PromQuery → PromRange → Except ε μ)
    (hTr : String → Rat → μ → List σ) (rTr cTr : String → μ → List σ)
    (submitMetrics : List σ → Option ε) (quantiles : List Rat)
    (hstep : stepSeconds = 0) :
    doTick now qi stepSeconds listMetrics queryMetrics hTr rTr cTr submitMetrics quantiles =
      { issued := [], submitted := none, reported := [], crashed := true } := by
  subst hstep
  unfold doTick
  rw [show calcRange now qi 0 = none from by unfold calcRange; rw [if_pos rfl]]

/-- Witness for the amended C5 at a concrete configuration. -/
theorem doTick_zero_step_fails_before_queries_witness :
    doTick (μ := Nat) 1000 60 0 (.ok (["latency_bucket"], ["requests_total"])) egQueryOk
        egHistogramToGauge egCountToRate egCountToCount egSubmitOk [1/2] =
      { issued := [], submitted := none, reported := [], crashed := true } :=
  doTick_zero_step_fails_before_queries 1000 60 0
    (.ok (["latency_bucket"], ["requests_total"])) egQueryOk egHistogramToGauge
    egCountToRate egCountToCount egSubmitOk [1/2] rfl

/-- C6: a failed catalog listing is fatal.  The tick issues no query,
sends nothing on the error channel, never invokes `SubmitMetrics`, and
panics (`panic(err)` in a goroutine kills the process); a process death
while the loop waits ends the run with no further tick launched and no
retry backoff. -/
theorem doTick_discovery_error_is_fatal {ε μ σ : Type} (now qi s : Int) (e : ε)
    (queryMetrics : PromQuery → PromRange → Except ε μ)
    (hTr : String → Rat → μ → List σ) (rTr cTr : String → μ → List σ)
    (submitMetrics : List σ → Option ε) (quantiles : List Rat) :
    (doTick now qi s (.error e) queryMetrics hTr rTr cTr submitMetrics quantiles =
      { issued := [], submitted := none, reported := [], crashed := true }) ∧
    (∀ rest : List (LoopEvent ε), runLoop (.tickCrash :: rest) =
      { launched := 1, backoffSeconds := 0, halted := some .crashed }) := by
  constructor
  · unfold doTick
    cases calcRange now qi s <;> rfl
  · intro rest
    rfl

/-- C9: one tick execution sends at most one error on the error channel
(the first failure wins and the tick returns right away), so a send on
the capacity-one channel `errs` never blocks. -/
theorem doTick_reports_at_most_one_error {ε μ σ : Type} (now qi s : Int)
    (listMetrics : Except ε (List String × List String))
    (queryMetrics : PromQuery → PromRange → Except ε μ)
    (hTr : String → Rat → μ → List σ) (rTr cTr : String → μ → List σ)
    (submitMetrics : List σ → Option ε) (quantiles : List Rat) :
    (doTick now qi s listMetrics queryMetrics hTr rTr cTr submitMetrics
      quantiles).reported.length ≤ 1 := by
  rcases hcr : calcRange now qi s with _ | r
  · simp [doTick, hcr]
  rcases listMetrics with e | ⟨histograms, counters⟩
  · simp [doTick, hcr]
  rcases hh : histLoop queryMetrics r hTr quantiles histograms with ⟨hIs, hSer⟩ | ⟨is, e⟩
  · rcases hc : counterLoop queryMetrics r rTr cTr counters with ⟨cIs, rSer, kSer⟩ | ⟨is, e⟩
    · simp only [doTick, hcr, hh, hc]
      rcases hsub : submitMetrics ((hSer ++ rSer) ++ kSer) with _ | e <;> simp [hsub]
    · simp [doTick, hcr, hh, hc]
  · simp [doTick, hcr, hh]

/-- C10: the scheduler loop never ends because a tick reported an error:
on any script of `select` outcomes free of interrupts and tick panics the
loop is still running, every event (including every received tick error)
is followed by launching the next tick, each received error adds exactly
the 3-second `RetryInterval` backoff, an interrupt returns at once, and a
run can only end in `interrupted` if an interrupt occurred.  (Each
launched tick recomputes its window: `do` calls `calcRange` with the
wall clock of that tick.) -/
theorem runLoop_survives_tick_errors {ε : Type} (script : List (LoopEvent ε))
    (h : ∀ ev ∈ script, ev.isTerminal = false) :
    (runLoop script).halted = none ∧
    (runLoop script).launched = script.length + 1 ∧
    (runLoop script).backoffSeconds =
      retryIntervalSeconds * script.countP LoopEvent.isTickError ∧
    (∀ rest : List (LoopEvent ε), runLoop (.interrupt :: rest) =
      { launched := 1, backoffSeconds := 0, halted := some .interrupted }) ∧
    (∀ script2 : List (LoopEvent ε), (runLoop script2).halted = some .interrupted →
      ∃ pre post, script2 = pre ++ .interrupt :: post) := by
  refine ⟨?_, ?_, ?_, fun rest => rfl, ?_⟩
  · induction script with
    | nil => rfl
    | cons ev rest ih =>
      have hev := h ev (List.mem_cons_self ev rest)
      have hrest := ih fun x hx => h x (List.mem_cons_of_mem ev hx)
      cases ev with
      | tickError e => simpa [runLoop] using hrest
      | timerFire => simpa [runLoop] using hrest
      | interrupt => cases hev
      | tickCrash => cases hev
  · induction script with
    | nil => rfl
    | cons ev rest ih =>
      have hev := h ev (List.mem_cons_self ev rest)
      have hrest := ih fun x hx => h x (List.mem_cons_of_mem ev hx)
      cases ev with
      | tickError e => simp [runLoop, hrest]
      | timerFire => simp [runLoop, hrest]
      | interrupt => cases hev
      | tickCrash => cases hev
  · induction script with
    | nil => rfl
    | cons ev rest ih =>
      have hev := h ev (List.mem_cons_self ev rest)
      have hrest := ih fun x hx => h x (List.mem_cons_of_mem ev hx)
      cases ev with
      | tickError e =>
        simp [runLoop, hrest, List.countP_cons, LoopEvent.isTickError, retryIntervalSeconds]
        ring
      | timerFire => simp [runLoop, hrest, List.countP_cons, LoopEvent.isTickError]
      | interrupt => cases hev
      | tickCrash => cases hev
  · intro script2
    induction script2 with
    | nil => intro hhalt; cases hhalt
    | cons ev rest ih =>
      intro hhalt
      cases ev with
      | tickError e =>
        obtain ⟨pre, post, hsplit⟩ := ih (by simpa [runLoop] using hhalt)
        exact ⟨.tickError e :: pre, post, by rw [hsplit, List.cons_append]⟩
      | timerFire =>
        obtain ⟨pre, post, hsplit⟩ := ih (by simpa [runLoop] using hhalt)
        exact ⟨.timerFire :: pre, post, by rw [hsplit, List.cons_append]⟩
      | interrupt => exact ⟨[], rest, rfl⟩
      | tickCrash => simp [runLoop] at hhalt

/-- Witness for C10: a tick error followed by a timer fire leaves the
loop running, with three ticks launched and one 3-second backoff. -/
theorem runLoop_survives_tick_errors_witness :
    (runLoop [LoopEvent.tickError "tick failed", LoopEvent.timerFire (ε := String)]).halted
        = none ∧
    (runLoop [LoopEvent.tickError "tick failed", LoopEvent.timerFire (ε := String)]).launched
        = [LoopEvent.tickError "tick failed", LoopEvent.timerFire (ε := String)].length + 1 ∧
    (runLoop [LoopEvent.tickError "tick failed",
        LoopEvent.timerFire (ε := String)]).backoffSeconds =
      retryIntervalSeconds *
        [LoopEvent.tickError "tick failed",
          LoopEvent.timerFire (ε := String)].countP LoopEvent.isTickError ∧
    (∀ rest : List (LoopEvent String), runLoop (.interrupt :: rest) =
      { launched := 1, backoffSeconds := 0, halted := some .interrupted }) ∧
    (∀ script2 : List (LoopEvent String), (runLoop script2).halted = some .interrupted →
      ∃ pre post, script2 = pre ++ .interrupt :: post) :=
  runLoop_survives_tick_errors
    [LoopEvent.tickError "tick failed", LoopEvent.timerFire (ε := String)]
    (by intro ev hev; rcases List.mem_cons.mp hev with rfl | hev; · rfl
        rcases List.mem_cons.mp hev with rfl | hev; · rfl
        cases hev)

end Worker

